import Mathlib

/-!
# Chat room server (`src/server.js`): message log, presence registry, socket handlers

A shallow embedding of the message store (`getMessages`, `saveMessage`), the user
side-table (`getUsers`, `saveUser`), the in-memory `onlineUsers` map and the six
Socket.io handlers registered in `io.on('connection', ...)`.

Modelling conventions.

* A data file is either a JSON array of records (`FileContent.content`) or something
  that `readFileSync` / `JSON.parse` rejects (`FileContent.unreadable`).
* `fs.writeFileSync` either succeeds, or throws and leaves the file in a state chosen
  by the environment (`WriteResult.failed`).
* Everything a handler takes from outside the program (uuid, clock, `Math.random`,
  outcome of the writes) is an explicit `Env` argument.
* A JavaScript string is the list of its UTF-16 code units (`JsString`), so that
  `slice` cuts where the source cuts; literals of the source are written `utf16 "..."`.
* A handler returns the state it leaves, the ordered trace of its effects (successful
  log writes and emitted events) and the exception that escaped it, if any.
-/

namespace Chatroom

/-! ## JavaScript primitives -/

/-- JavaScript `Array.prototype.slice(start)` with one argument: a negative `start`
counts from the end, and the start index is clamped to `[0, length]`. -/
def slice {α : Type} (l : List α) (start : Int) : List α :=
  let len : Int := l.length
  let k : Int := if start < 0 then max (len + start) 0 else min start len
  l.drop k.toNat

/-- A JavaScript string: its sequence of UTF-16 code units. Indexing, `length` and
`slice` of the source all count in these units. -/
abbrev JsString := List Nat

/-- UTF-16 encoding of one Unicode scalar value (a surrogate pair above the BMP). -/
def utf16Char (ch : Char) : List Nat :=
  if ch.toNat < 0x10000 then [ch.toNat]
  else [0xD800 + (ch.toNat - 0x10000) / 0x400, 0xDC00 + (ch.toNat - 0x10000) % 0x400]

/-- UTF-16 encoding of a list of Unicode scalar values. -/
def utf16Units : List Char → JsString
  | [] => []
  | ch :: rest => utf16Char ch ++ utf16Units rest

/-- The JavaScript string denoted by a string literal of the source. -/
def utf16 (s : String) : JsString := utf16Units s.data

/-- JavaScript `String.prototype.slice(start, stop)` for `0 ≤ start ≤ stop`: the code
units from index `start` up to, not including, index `stop`. -/
def strSlice (s : JsString) (start stop : Nat) : JsString :=
  (s.drop start).take (stop - start)

/-- JavaScript `a || b` on an optional string: `undefined` and `''` are falsy. -/
def orElse (a : Option JsString) (b : JsString) : JsString :=
  match a with
  | some x => if x = [] then b else x
  | none => b

/-! ## Records -/

/-- The `type` field of a stored message. -/
inductive MsgType where
  | text
  | image
  | system
  deriving DecidableEq, Repr

/-- A chat message as built by the handlers. System messages carry no author fields. -/
structure Message where
  id : JsString
  type : MsgType
  content : JsString
  userId : Option JsString
  username : Option JsString
  avatar : Option JsString
  color : Option JsString
  timestamp : JsString
  deriving DecidableEq, Repr

/-- The `user` object built by the `join` handler. -/
structure User where
  id : JsString
  username : JsString
  avatar : JsString
  color : JsString
  joinedAt : JsString
  deriving DecidableEq, Repr

/-- The `userData` payload of a `join` event; every field may be missing. -/
structure UserData where
  username : Option JsString
  avatar : Option JsString
  color : Option JsString
  deriving DecidableEq, Repr

/-! ## Files -/

/-- What a data file holds: a JSON array, or something that cannot be read or parsed. -/
inductive FileContent (α : Type) where
  | content (records : List α)
  | unreadable
  deriving DecidableEq, Repr

/-- The exception thrown by a failing `fs.writeFileSync`. -/
inductive Err where
  | writeFailed
  deriving DecidableEq, Repr

/-- Outcome of one `fs.writeFileSync` call, decided by the environment. -/
inductive WriteResult (α : Type) where
  | ok
  | failed (left : FileContent α)
  deriving DecidableEq, Repr

/-- Model of `fs.writeFileSync(FILE, JSON.stringify(data, null, 2))`. -/
def writeFileSync {α : Type} (w : WriteResult α) (data : List α) : FileContent α × Option Err :=
  match w with
  | .ok => (.content data, none)
  | .failed left => (left, some .writeFailed)

/-- Source `getMessages`: the parsed array, or `[]` when reading or parsing throws. -/
def getMessages (file : FileContent Message) : List Message :=
  match file with
  | .content records => records
  | .unreadable => []

/-- Source `saveMessage`: read, push, keep `slice(-500)`, write. Returns the file
afterwards and the error thrown by the write, if any. -/
def saveMessage (w : WriteResult Message) (message : Message) (file : FileContent Message) :
    FileContent Message × Option Err :=
  let messages := getMessages file ++ [message]
  let recentMessages := slice messages (-500)
  writeFileSync w recentMessages

/-- Source `getUsers`. -/
def getUsers (file : FileContent User) : List User :=
  match file with
  | .content records => records
  | .unreadable => []

/-- The replace-or-push step of `saveUser` (`findIndex` hits the first match). -/
def upsertUser (user : User) : List User → List User
  | [] => [user]
  | u :: rest => if u.id = user.id then user :: rest else u :: upsertUser user rest

/-- Source `saveUser`. -/
def saveUser (w : WriteResult User) (user : User) (file : FileContent User) :
    FileContent User × Option Err :=
  writeFileSync w (upsertUser user (getUsers file))

/-- Handler of `GET /api/messages`: `getMessages().slice(-100)`. -/
def apiMessages (file : FileContent Message) : List Message :=
  slice (getMessages file) (-100)

/-! ## The `onlineUsers` map -/

/-- A JavaScript `Map` from connection id to user, in insertion order. -/
abbrev Registry := List (JsString × User)

/-- `Map.prototype.get`. -/
def mapGet (m : Registry) (k : JsString) : Option User :=
  match m with
  | [] => none
  | (k1, v) :: rest => if k1 = k then some v else mapGet rest k

/-- `Map.prototype.set`: an existing key keeps its position, a new key goes last. -/
def mapSet (m : Registry) (k : JsString) (v : User) : Registry :=
  match m with
  | [] => [(k, v)]
  | (k1, v1) :: rest => if k1 = k then (k, v) :: rest else (k1, v1) :: mapSet rest k v

/-- `Map.prototype.delete`. -/
def mapDelete (m : Registry) (k : JsString) : Registry :=
  match m with
  | [] => []
  | (k1, v1) :: rest => if k1 = k then rest else (k1, v1) :: mapDelete rest k

/-- `Array.from(map.values())`. -/
def mapValues (m : Registry) : List User := m.map Prod.snd

/-- `map.size`. -/
def mapSize (m : Registry) : Nat := m.length

/-! ## Random palettes -/

/-- The `avatars` array of `getRandomAvatar`. -/
def avatars : List JsString :=
  ["😀", "😎", "🤖", "👻", "🦊", "🐱", "🐶", "🐼", "🦁", "🐯", "🐨", "🐸", "🐵", "🦄", "🐲"].map utf16

/-- The `colors` array of `getRandomColor`. -/
def colors : List JsString :=
  ["#FF6B6B", "#4ECDC4", "#45B7D1", "#96CEB4", "#FFEAA7", "#DDA0DD", "#98D8C8", "#F7DC6F",
    "#BB8FCE", "#85C1E9"].map utf16

/-- Source `getRandomAvatar`; `k` is `Math.floor(Math.random() * avatars.length)`. -/
def getRandomAvatar (k : Fin 15) : JsString := avatars.getD k.val []

/-- Source `getRandomColor`; `k` is `Math.floor(Math.random() * colors.length)`. -/
def getRandomColor (k : Fin 10) : JsString := colors.getD k.val []

/-! ## Events, effects, state -/

/-- Inbound socket events. -/
inductive Event where
  | join (userData : UserData)
  | textMessage (content : JsString)
  | imageMessage (url : JsString)
  | typing
  | stopTyping
  | disconnect
  deriving DecidableEq, Repr

/-- Addressees of an emitted event: `io.emit`, `socket.broadcast.emit`, `socket.emit`. -/
inductive Target where
  | all
  | allExcept (id : JsString)
  | only (id : JsString)
  deriving DecidableEq, Repr

/-- Outbound socket events with their payloads. -/
inductive OutEvent where
  | message (m : Message)
  | users (snapshot : List User)
  | welcome (user : User) (usersCount : Nat)
  | userTyping (username : JsString)
  | userStopTyping (username : JsString)
  deriving DecidableEq, Repr

/-- One observable effect of a handler. -/
inductive Effect where
  | saved (m : Message)
  | emit (target : Target) (ev : OutEvent)
  deriving DecidableEq, Repr

/-- What a handler reads from outside the program. -/
structure Env where
  uuid : JsString
  joinedAt : JsString
  timestamp : JsString
  avatarPick : Fin 15
  colorPick : Fin 10
  usersWrite : WriteResult User
  messagesWrite : WriteResult Message
  deriving DecidableEq, Repr

/-- Server state: the two data files touched by the handlers and the `onlineUsers` map. -/
structure State where
  messagesFile : FileContent Message
  usersFile : FileContent User
  onlineUsers : Registry
  deriving DecidableEq, Repr

/-- Result of running one handler. -/
structure Outcome where
  state : State
  trace : List Effect
  error : Option Err
  deriving DecidableEq, Repr

/-! ## Handlers -/

/-- The `user` object of the `join` handler. -/
def mkUser (env : Env) (socketId : JsString) (userData : UserData) : User :=
  { id := socketId
    username := orElse userData.username (utf16 "用户" ++ strSlice socketId 0 4)
    avatar := orElse userData.avatar (getRandomAvatar env.avatarPick)
    color := orElse userData.color (getRandomColor env.colorPick)
    joinedAt := env.joinedAt }

/-- The system message object shared by `join` and `disconnect`. -/
def systemMessage (env : Env) (content : JsString) : Message :=
  { id := env.uuid, type := .system, content := content, userId := none, username := none,
    avatar := none, color := none, timestamp := env.timestamp }

/-- The message object of `text-message` and `image-message`. -/
def userMessage (env : Env) (type : MsgType) (content : JsString) (user : User) : Message :=
  { id := env.uuid, type := type, content := content, userId := some user.id,
    username := some user.username, avatar := some user.avatar, color := some user.color,
    timestamp := env.timestamp }

/-- The tail shared by every persisting handler: `saveMessage(m); io.emit('message', m);`
followed by the handler's remaining emits. -/
def saveAndEmit (env : Env) (s : State) (m : Message) (more : List Effect) : Outcome :=
  match saveMessage env.messagesWrite m s.messagesFile with
  | (file, some e) => ⟨{ s with messagesFile := file }, [], some e⟩
  | (file, none) =>
    ⟨{ s with messagesFile := file }, .saved m :: .emit .all (.message m) :: more, none⟩

/-- Handler `socket.on('join', ...)`. -/
def onJoin (env : Env) (socketId : JsString) (userData : UserData) (s : State) : Outcome :=
  let user := mkUser env socketId userData
  let s1 : State := { s with onlineUsers := mapSet s.onlineUsers socketId user }
  match saveUser env.usersWrite user s1.usersFile with
  | (file, some e) => ⟨{ s1 with usersFile := file }, [], some e⟩
  | (file, none) =>
    let s2 : State := { s1 with usersFile := file }
    let joinMessage := systemMessage env (user.username ++ utf16 " 加入了聊天室")
    saveAndEmit env s2 joinMessage
      [.emit .all (.users (mapValues s2.onlineUsers)),
       .emit (.only socketId) (.welcome user (mapSize s2.onlineUsers))]

/-- Handler `socket.on('text-message', ...)`. -/
def onTextMessage (env : Env) (socketId : JsString) (content : JsString) (s : State) : Outcome :=
  match mapGet s.onlineUsers socketId with
  | none => ⟨s, [], none⟩
  | some user => saveAndEmit env s (userMessage env .text content user) []

/-- Handler `socket.on('image-message', ...)`. -/
def onImageMessage (env : Env) (socketId : JsString) (url : JsString) (s : State) : Outcome :=
  match mapGet s.onlineUsers socketId with
  | none => ⟨s, [], none⟩
  | some user => saveAndEmit env s (userMessage env .image url user) []

/-- Handler `socket.on('typing', ...)`. -/
def onTyping (socketId : JsString) (s : State) : Outcome :=
  match mapGet s.onlineUsers socketId with
  | none => ⟨s, [], none⟩
  | some user => ⟨s, [.emit (.allExcept socketId) (.userTyping user.username)], none⟩

/-- Handler `socket.on('stop-typing', ...)`. -/
def onStopTyping (socketId : JsString) (s : State) : Outcome :=
  match mapGet s.onlineUsers socketId with
  | none => ⟨s, [], none⟩
  | some user => ⟨s, [.emit (.allExcept socketId) (.userStopTyping user.username)], none⟩

/-- Handler `socket.on('disconnect', ...)`. -/
def onDisconnect (env : Env) (socketId : JsString) (s : State) : Outcome :=
  match mapGet s.onlineUsers socketId with
  | none => ⟨s, [], none⟩
  | some user =>
    let s1 : State := { s with onlineUsers := mapDelete s.onlineUsers socketId }
    let leaveMessage := systemMessage env (user.username ++ utf16 " 离开了聊天室")
    saveAndEmit env s1 leaveMessage [.emit .all (.users (mapValues s1.onlineUsers))]

/-- Dispatch of one inbound event on the connection `socketId`. -/
def handle (env : Env) (socketId : JsString) (ev : Event) (s : State) : Outcome :=
  match ev with
  | .join userData => onJoin env socketId userData s
  | .textMessage content => onTextMessage env socketId content s
  | .imageMessage url => onImageMessage env socketId url s
  | .typing => onTyping socketId s
  | .stopTyping => onStopTyping socketId s
  | .disconnect => onDisconnect env socketId s

/-! ## Runs -/

/-- The last `n` elements of a list, in order. -/
def lastN {α : Type} (n : Nat) (l : List α) : List α := l.drop (l.length - n)

/-- Appending the messages `ms` one after another with `saveMessage`, every write
succeeding. -/
def saveAll (ms : List Message) (file : FileContent Message) : FileContent Message :=
  ms.foldl (fun f m => (saveMessage .ok m f).1) file

/-- One inbound event, the connection it arrives on and the environment it is handled in. -/
structure Step where
  env : Env
  socketId : JsString
  event : Event
  deriving DecidableEq, Repr

/-- Handling a sequence of events one after another. An exception that escapes a handler
is uncaught, so the run ends there. -/
def run (steps : List Step) (s : State) : Outcome :=
  match steps with
  | [] => ⟨s, [], none⟩
  | st :: rest =>
    let o := handle st.env st.socketId st.event s
    match o.error with
    | some e => ⟨o.state, o.trace, some e⟩
    | none =>
      let r := run rest o.state
      ⟨r.state, o.trace ++ r.trace, r.error⟩

/-- The payloads of the `'message'` events of a trace, in emission order. -/
def broadcastMessages (trace : List Effect) : List Message :=
  trace.filterMap fun e =>
    match e with
    | .emit _ (.message m) => some m
    | _ => none

/-- The messages written to the log in a trace, in write order. -/
def savedMessages (trace : List Effect) : List Message :=
  trace.filterMap fun e =>
    match e with
    | .saved m => some m
    | _ => none

/-- A trace in which every log write is immediately followed by the `'message'` event
of the same message to all sessions, and no `'message'` event occurs otherwise. -/
inductive Paired : List Effect → Prop where
  | nil : Paired []
  | pair (m : Message) (rest : List Effect) :
      Paired rest → Paired (.saved m :: .emit .all (.message m) :: rest)
  | other (t : Target) (ev : OutEvent) (rest : List Effect) :
      (∀ m, ev ≠ .message m) → Paired rest → Paired (.emit t ev :: rest)

/-- Whether the session `id` is among the addressees of `t`. -/
def receives (t : Target) (id : JsString) : Bool :=
  match t with
  | .all => true
  | .allExcept x => decide (id ≠ x)
  | .only x => decide (id = x)

/-- The states the server can be in: it starts with an empty `onlineUsers` map, whatever
the data files hold, and moves by handling events (also those whose handler throws). -/
inductive Reachable : State → Prop where
  | start (messagesFile : FileContent Message) (usersFile : FileContent User) :
      Reachable ⟨messagesFile, usersFile, []⟩
  | step (env : Env) (socketId : JsString) (ev : Event) (s : State) :
      Reachable s → Reachable (handle env socketId ev s).state

/-- Registry invariant: keys are pairwise distinct and every user is stored under its id. -/
def RegistryOK (m : Registry) : Prop :=
  (m.map Prod.fst).Nodup ∧ ∀ p ∈ m, p.2.id = p.1

/-- Effect of a handler (or of a run), all writes succeeding, on the log and the trace: no
error, writes paired with broadcasts, and the log tracks the broadcast payloads. -/
structure StepOK (s : State) (o : Outcome) : Prop where
  noError : o.error = none
  paired : Paired o.trace
  sameLists : savedMessages o.trace = broadcastMessages o.trace
  log : ∀ pre, s.messagesFile = .content (lastN 500 pre) →
    o.state.messagesFile = .content (lastN 500 (pre ++ broadcastMessages o.trace))

/-! ## Sample data -/

/-- An environment in which both writes succeed. -/
def sampleEnv : Env :=
  ⟨utf16 "uuid-1", utf16 "2024-01-01T00:00:00.000Z", utf16 "2024-01-01T00:00:00.000Z", 4, 0,
    .ok, .ok⟩

/-- An environment in which the write of the message log fails and leaves the log as
it was read (empty). -/
def failingEnv : Env :=
  ⟨utf16 "uuid-2", utf16 "2024-01-01T00:00:01.000Z", utf16 "2024-01-01T00:00:01.000Z", 4, 0,
    .ok, .failed (.content [])⟩

/-- A fresh server with empty data files. -/
def sampleStart : State := ⟨.content [], .content [], []⟩

/-- The state after connection `abcdef` joined as Ann on a fresh server. -/
def sampleJoined : State :=
  (handle sampleEnv (utf16 "abcdef")
    (.join ⟨some (utf16 "Ann"), some (utf16 "🦊"), some (utf16 "#FF6B6B")⟩) sampleStart).state

/-- The participant registered in `sampleJoined`. -/
def sampleUser : User :=
  ⟨utf16 "abcdef", utf16 "Ann", utf16 "🦊", utf16 "#FF6B6B", utf16 "2024-01-01T00:00:00.000Z"⟩

/-- A short session: join, one text message, disconnect. -/
def sampleSteps : List Step :=
  [⟨sampleEnv, utf16 "abcdef",
      .join ⟨some (utf16 "Ann"), some (utf16 "🦊"), some (utf16 "#FF6B6B")⟩⟩,
   ⟨sampleEnv, utf16 "abcdef", .textMessage (utf16 "hello")⟩,
   ⟨sampleEnv, utf16 "abcdef", .disconnect⟩]

/-! ## Lemmas on `slice` and `lastN` -/

theorem slice_neg {α : Type} (l : List α) (n : Nat) (hn : 0 < n) :
    slice l (-(n : Int)) = lastN n l := by
  unfold slice lastN
  have h : (-(n : Int)) < 0 := by omega
  simp only [h, if_true]
  congr 1
  omega

theorem slice_500 {α : Type} (l : List α) : slice l (-500) = lastN 500 l :=
  slice_neg l 500 (by decide)

theorem slice_100 {α : Type} (l : List α) : slice l (-100) = lastN 100 l :=
  slice_neg l 100 (by decide)

theorem length_lastN {α : Type} (n : Nat) (l : List α) : (lastN n l).length = min n l.length := by
  unfold lastN
  rw [List.length_drop]
  omega

theorem lastN_snoc_lastN {α : Type} (k n : Nat) (l : List α) (x : α) (hk : k ≤ n + 1) :
    lastN k (lastN n l ++ [x]) = lastN k (l ++ [x]) := by
  unfold lastN
  have h1 : l.drop (l.length - n) ++ [x] = (l ++ [x]).drop (l.length - n) := by
    rw [List.drop_append_of_le_length (by omega)]
  rw [h1, List.drop_drop]
  congr 1
  simp only [List.length_drop, List.length_append, List.length_singleton]
  omega

theorem lastN_lastN {α : Type} (k n : Nat) (l : List α) (hk : k ≤ n) :
    lastN k (lastN n l) = lastN k l := by
  unfold lastN
  rw [List.drop_drop]
  congr 1
  simp only [List.length_drop]
  omega

/-- `slice` counts UTF-16 code units: a character above the BMP takes two of them, and
the cut may fall between the two. -/
theorem strSlice_code_units :
    strSlice (utf16 "a😀bc") 0 4 = utf16 "a😀b"
    ∧ strSlice (utf16 "abc😀") 0 4 = [97, 98, 99, 0xD83D] := by
  decide

/-! ## Lemmas on the message store -/

theorem saveMessage_ok (m : Message) (file : FileContent Message) :
    saveMessage .ok m file = (.content (lastN 500 (getMessages file ++ [m])), none) := by
  simp [saveMessage, writeFileSync, slice_500]

theorem saveMessage_failed (left : FileContent Message) (m : Message)
    (file : FileContent Message) :
    saveMessage (.failed left) m file = (left, some .writeFailed) := by
  simp [saveMessage, writeFileSync]

theorem saveAll_snoc (ms : List Message) (m : Message) (file : FileContent Message) :
    saveAll (ms ++ [m]) file = (saveMessage .ok m (saveAll ms file)).1 := by
  simp [saveAll, List.foldl_append]

theorem saveAll_empty (ms : List Message) :
    saveAll ms (.content []) = .content (lastN 500 ms) := by
  induction ms using List.reverseRecOn with
  | nil => rfl
  | append_singleton ms m ih =>
    rw [saveAll_snoc, ih, saveMessage_ok]
    simp only [getMessages]
    rw [lastN_snoc_lastN 500 500 ms m (by omega)]

/-! ## Claims -/

/-- C1: appending any sequence of messages with `saveMessage` to an empty readable log,
all writes succeeding, leaves exactly the last `min(n, 500)` of them in append order;
the stored length is `min(n, 500)`, hence at most 500; and on a log of 500 entries one
more append drops the oldest entry and keeps all the others, followed by the new one. -/
theorem C1_retention_cap (ms : List Message) :
    saveAll ms (.content []) = .content (ms.drop (ms.length - min ms.length 500))
    ∧ (getMessages (saveAll ms (.content []))).length = min ms.length 500
    ∧ (getMessages (saveAll ms (.content []))).length ≤ 500
    ∧ ∀ (old : List Message) (m : Message), old.length = 500 →
        saveMessage .ok m (.content old) = (.content (old.tail ++ [m]), none) := by
  have h := saveAll_empty ms
  refine ⟨?_, ?_, ?_, ?_⟩
  · rw [h]
    unfold lastN
    have e : ms.length - 500 = ms.length - min ms.length 500 := by omega
    rw [e]
  · rw [h]
    simp only [getMessages, length_lastN]
    omega
  · rw [h]
    simp only [getMessages, length_lastN]
    omega
  · intro old m hold
    rw [saveMessage_ok]
    simp only [getMessages]
    unfold lastN
    rw [List.length_append, List.length_singleton, hold]
    cases old with
    | nil => simp at hold
    | cons a rest => rfl

/-- Witness for C1 on a full log of 500 copies of one message. -/
theorem C1_retention_cap_witness :
    (List.replicate 500 (systemMessage ⟨(utf16 "a"), [], [], 0, 0, .ok, .ok⟩ (utf16 "x"))).length = 500
    ∧ saveMessage .ok (systemMessage ⟨(utf16 "b"), [], [], 0, 0, .ok, .ok⟩ (utf16 "y"))
        (.content (List.replicate 500 (systemMessage ⟨(utf16 "a"), [], [], 0, 0, .ok, .ok⟩ (utf16 "x"))))
      = (.content ((List.replicate 500 (systemMessage ⟨(utf16 "a"), [], [], 0, 0, .ok, .ok⟩ (utf16 "x"))).tail
          ++ [systemMessage ⟨(utf16 "b"), [], [], 0, 0, .ok, .ok⟩ (utf16 "y")]), none) :=
  ⟨List.length_replicate _ _,
   (C1_retention_cap []).2.2.2 _ _ (List.length_replicate _ _)⟩

/-- C2: after appending any sequence of messages to an empty log, the history query
(`getMessages().slice(-100)`) returns exactly the last `min(100, count)` appended
messages, oldest first; every one of them is still stored, so the 500-entry trim has
removed none of them. -/
theorem C2_history_query (ms : List Message) :
    apiMessages (saveAll ms (.content [])) = ms.drop (ms.length - min 100 ms.length)
    ∧ (apiMessages (saveAll ms (.content []))).length = min 100 ms.length
    ∧ ∀ m ∈ lastN 100 ms, m ∈ getMessages (saveAll ms (.content [])) := by
  have h := saveAll_empty ms
  have e : apiMessages (saveAll ms (.content [])) = lastN 100 ms := by
    rw [h]
    simp only [apiMessages, getMessages, slice_100]
    exact lastN_lastN 100 500 ms (by omega)
  refine ⟨?_, ?_, ?_⟩
  · rw [e]
    unfold lastN
    have e2 : ms.length - 100 = ms.length - min 100 ms.length := by omega
    rw [e2]
  · rw [e, length_lastN]
  · intro m hm
    rw [h]
    simp only [getMessages]
    rw [← lastN_lastN 100 500 ms (by omega)] at hm
    exact List.mem_of_mem_drop hm

/-! ## Lemmas on traces and handlers -/

theorem Paired.append {a b : List Effect} (ha : Paired a) (hb : Paired b) : Paired (a ++ b) := by
  induction ha with
  | nil => simpa using hb
  | pair m rest _ ih => exact Paired.pair m _ ih
  | other t ev rest hne _ ih => exact Paired.other t ev _ hne ih

theorem broadcastMessages_append (a b : List Effect) :
    broadcastMessages (a ++ b) = broadcastMessages a ++ broadcastMessages b := by
  simp [broadcastMessages, List.filterMap_append]

theorem savedMessages_append (a b : List Effect) :
    savedMessages (a ++ b) = savedMessages a ++ savedMessages b := by
  simp [savedMessages, List.filterMap_append]

theorem saveAndEmit_ok (env : Env) (s : State) (m : Message) (more : List Effect)
    (hw : env.messagesWrite = .ok) :
    saveAndEmit env s m more =
      ⟨{ s with messagesFile := .content (lastN 500 (getMessages s.messagesFile ++ [m])) },
        .saved m :: .emit .all (.message m) :: more, none⟩ := by
  simp [saveAndEmit, hw, saveMessage_ok]

theorem saveAndEmit_failed (env : Env) (s : State) (m : Message) (more : List Effect)
    (left : FileContent Message) (hw : env.messagesWrite = .failed left) :
    saveAndEmit env s m more = ⟨{ s with messagesFile := left }, [], some .writeFailed⟩ := by
  simp [saveAndEmit, hw, saveMessage_failed]

theorem stepOK_id (s : State) : StepOK s ⟨s, [], none⟩ :=
  ⟨rfl, Paired.nil, rfl, fun pre h => by simpa [broadcastMessages] using h⟩

theorem stepOK_silent (s : State) (t : Target) (ev : OutEvent) (h : ∀ m, ev ≠ .message m) :
    StepOK s ⟨s, [.emit t ev], none⟩ := by
  refine ⟨rfl, Paired.other t ev [] h Paired.nil, ?_, ?_⟩
  · cases ev <;> simp [savedMessages, broadcastMessages] at h ⊢
  · intro pre hpre
    cases ev <;> simp [broadcastMessages] at h ⊢ <;> exact hpre

theorem stepOK_saveAndEmit (env : Env) (s s1 : State) (m : Message) (more : List Effect)
    (hw : env.messagesWrite = .ok) (hfile : s1.messagesFile = s.messagesFile)
    (hmore : Paired more) (hb : broadcastMessages more = []) (hs : savedMessages more = []) :
    StepOK s (saveAndEmit env s1 m more) := by
  rw [saveAndEmit_ok env s1 m more hw]
  refine ⟨rfl, Paired.pair m more hmore, ?_, ?_⟩
  · simp only [savedMessages, broadcastMessages, List.filterMap_cons] at hb hs ⊢
    rw [hb, hs]
  · intro pre hpre
    have hb2 : broadcastMessages (.saved m :: .emit .all (.message m) :: more) = [m] := by
      simp only [broadcastMessages, List.filterMap_cons] at hb ⊢
      rw [hb]
    rw [hb2]
    show FileContent.content (lastN 500 (getMessages s1.messagesFile ++ [m])) = _
    rw [hfile, hpre]
    simp only [getMessages]
    rw [lastN_snoc_lastN 500 500 pre m (by omega)]

theorem handle_stepOK (env : Env) (c : JsString) (ev : Event) (s : State)
    (hu : env.usersWrite = .ok) (hm : env.messagesWrite = .ok) :
    StepOK s (handle env c ev s) := by
  cases ev with
  | join d =>
    simp only [handle, onJoin, saveUser, writeFileSync, hu]
    refine stepOK_saveAndEmit env s _ _ _ hm ?_ ?_ ?_ ?_
    · rfl
    · exact Paired.other _ _ _ (by intro m; simp)
        (Paired.other _ _ _ (by intro m; simp) Paired.nil)
    · simp [broadcastMessages]
    · simp [savedMessages]
  | textMessage x =>
    simp only [handle, onTextMessage]
    cases mapGet s.onlineUsers c with
    | none => exact stepOK_id s
    | some u => exact stepOK_saveAndEmit env s s _ [] hm rfl Paired.nil rfl rfl
  | imageMessage x =>
    simp only [handle, onImageMessage]
    cases mapGet s.onlineUsers c with
    | none => exact stepOK_id s
    | some u => exact stepOK_saveAndEmit env s s _ [] hm rfl Paired.nil rfl rfl
  | typing =>
    simp only [handle, onTyping]
    cases mapGet s.onlineUsers c with
    | none => exact stepOK_id s
    | some u => exact stepOK_silent s _ _ (by intro m; simp)
  | stopTyping =>
    simp only [handle, onStopTyping]
    cases mapGet s.onlineUsers c with
    | none => exact stepOK_id s
    | some u => exact stepOK_silent s _ _ (by intro m; simp)
  | disconnect =>
    simp only [handle, onDisconnect]
    cases mapGet s.onlineUsers c with
    | none => exact stepOK_id s
    | some u =>
      refine stepOK_saveAndEmit env s _ _ _ hm ?_ ?_ ?_ ?_
      · rfl
      · exact Paired.other _ _ _ (by intro m; simp) Paired.nil
      · simp [broadcastMessages]
      · simp [savedMessages]

theorem run_stepOK (steps : List Step) :
    ∀ s : State, (∀ st ∈ steps, st.env.usersWrite = .ok ∧ st.env.messagesWrite = .ok) →
      StepOK s (run steps s) := by
  induction steps with
  | nil => intro s _; exact stepOK_id s
  | cons st rest ih =>
    intro s hw
    have h1 := handle_stepOK st.env st.socketId st.event s
      (hw st (List.mem_cons_self _ _)).1 (hw st (List.mem_cons_self _ _)).2
    have h2 := ih (handle st.env st.socketId st.event s).state
      (fun x hx => hw x (List.mem_cons_of_mem _ hx))
    simp only [run, h1.noError]
    refine ⟨h2.noError, Paired.append h1.paired h2.paired, ?_, ?_⟩
    · simp only [savedMessages_append, broadcastMessages_append, h1.sameLists, h2.sameLists]
    · intro pre hpre
      simp only [broadcastMessages_append]
      rw [← List.append_assoc]
      exact h2.log _ (h1.log pre hpre)

/-! ## Lemmas on the registry -/

theorem mapGet_mapSet_self (m : Registry) (k : JsString) (v : User) :
    mapGet (mapSet m k v) k = some v := by
  induction m with
  | nil => simp [mapSet, mapGet]
  | cons p rest ih =>
    obtain ⟨k1, v1⟩ := p
    by_cases h : k1 = k
    · simp [mapSet, mapGet, h]
    · simp [mapSet, mapGet, h, ih]

theorem mapGet_mapSet_other (m : Registry) (k k2 : JsString) (v : User) (hne : k2 ≠ k) :
    mapGet (mapSet m k v) k2 = mapGet m k2 := by
  induction m with
  | nil => simp [mapSet, mapGet, Ne.symm hne]
  | cons p rest ih =>
    obtain ⟨k1, v1⟩ := p
    by_cases h : k1 = k
    · subst h
      simp [mapSet, mapGet, Ne.symm hne]
    · by_cases h2 : k1 = k2
      · subst h2
        simp [mapSet, mapGet, h]
      · simp [mapSet, mapGet, h, h2, ih]

theorem mem_of_mapGet (m : Registry) (k : JsString) (u : User) (h : mapGet m k = some u) :
    (k, u) ∈ m := by
  induction m with
  | nil => simp [mapGet] at h
  | cons p rest ih =>
    obtain ⟨k1, v1⟩ := p
    by_cases hk : k1 = k
    · simp [mapGet, hk] at h
      simp [hk, h]
    · simp [mapGet, hk] at h
      exact List.mem_cons_of_mem _ (ih h)

theorem mapGet_none_iff (m : Registry) (k : JsString) :
    mapGet m k = none ↔ k ∉ m.map Prod.fst := by
  induction m with
  | nil => simp [mapGet]
  | cons p rest ih =>
    obtain ⟨k1, v1⟩ := p
    by_cases hk : k1 = k
    · simp [mapGet, hk]
    · simp [mapGet, hk, ih, Ne.symm hk]

theorem mapSize_mapSet_of_mem (m : Registry) (k : JsString) (u v : User)
    (h : mapGet m k = some u) : mapSize (mapSet m k v) = mapSize m := by
  induction m with
  | nil => simp [mapGet] at h
  | cons p rest ih =>
    obtain ⟨k1, v1⟩ := p
    by_cases hk : k1 = k
    · simp [mapSet, mapSize, hk]
    · simp [mapGet, hk] at h
      have := ih h
      simp [mapSet, mapSize, hk] at this ⊢
      exact this

theorem mem_mapSet (m : Registry) (k : JsString) (v : User) (p : JsString × User)
    (hp : p ∈ mapSet m k v) : p = (k, v) ∨ p ∈ m := by
  induction m with
  | nil =>
    simp [mapSet] at hp
    exact Or.inl hp
  | cons q rest ih =>
    obtain ⟨k1, v1⟩ := q
    by_cases hk : k1 = k
    · simp [mapSet, hk] at hp
      rcases hp with hp | hp
      · exact Or.inl hp
      · exact Or.inr (List.mem_cons_of_mem _ hp)
    · simp [mapSet, hk] at hp
      rcases hp with hp | hp
      · right
        subst hp
        exact List.mem_cons_self _ _
      · rcases ih hp with h | h
        · exact Or.inl h
        · exact Or.inr (List.mem_cons_of_mem _ h)

theorem keys_mapSet (m : Registry) (k : JsString) (v : User) :
    (mapSet m k v).map Prod.fst
      = if k ∈ m.map Prod.fst then m.map Prod.fst else m.map Prod.fst ++ [k] := by
  induction m with
  | nil => simp [mapSet]
  | cons q rest ih =>
    obtain ⟨k1, v1⟩ := q
    by_cases hk : k1 = k
    · simp [mapSet, hk]
    · have hk2 : ¬ k = k1 := fun h => hk h.symm
      simp only [mapSet, hk, if_false, List.map_cons, ih, List.mem_cons, hk2, false_or]
      split <;> simp

theorem mem_mapDelete (m : Registry) (k : JsString) (p : JsString × User)
    (hp : p ∈ mapDelete m k) : p ∈ m := by
  induction m with
  | nil => simp [mapDelete] at hp
  | cons q rest ih =>
    obtain ⟨k1, v1⟩ := q
    by_cases hk : k1 = k
    · simp [mapDelete, hk] at hp
      exact List.mem_cons_of_mem _ hp
    · simp [mapDelete, hk] at hp
      rcases hp with hp | hp
      · subst hp
        exact List.mem_cons_self _ _
      · exact List.mem_cons_of_mem _ (ih hp)

theorem keys_mapDelete_sublist (m : Registry) (k : JsString) :
    ((mapDelete m k).map Prod.fst).Sublist (m.map Prod.fst) := by
  induction m with
  | nil => simp [mapDelete]
  | cons q rest ih =>
    obtain ⟨k1, v1⟩ := q
    by_cases hk : k1 = k
    · simp [mapDelete, hk]
    · simp only [mapDelete, hk, if_false, List.map_cons]
      exact List.Sublist.cons₂ _ ih

theorem registryOK_nil : RegistryOK [] := by
  simp [RegistryOK]

theorem registryOK_mapSet (m : Registry) (k : JsString) (v : User) (hm : RegistryOK m)
    (hv : v.id = k) : RegistryOK (mapSet m k v) := by
  refine ⟨?_, ?_⟩
  · rw [keys_mapSet]
    split
    · exact hm.1
    · rename_i hk
      exact List.Nodup.append hm.1 (List.nodup_singleton k) (by simpa using hk)
  · intro p hp
    rcases mem_mapSet m k v p hp with h | h
    · subst h
      exact hv
    · exact hm.2 p h

theorem registryOK_mapDelete (m : Registry) (k : JsString) (hm : RegistryOK m) :
    RegistryOK (mapDelete m k) :=
  ⟨List.Nodup.sublist (keys_mapDelete_sublist m k) hm.1,
    fun p hp => hm.2 p (mem_mapDelete m k p hp)⟩

theorem saveAndEmit_onlineUsers (env : Env) (s : State) (m : Message) (more : List Effect) :
    (saveAndEmit env s m more).state.onlineUsers = s.onlineUsers := by
  unfold saveAndEmit
  split <;> rfl

theorem onJoin_onlineUsers (env : Env) (c : JsString) (d : UserData) (s : State) :
    (onJoin env c d s).state.onlineUsers = mapSet s.onlineUsers c (mkUser env c d) := by
  unfold onJoin
  simp only []
  split
  · rfl
  · rw [saveAndEmit_onlineUsers]

theorem onDisconnect_onlineUsers (env : Env) (c : JsString) (s : State) (u : User)
    (h : mapGet s.onlineUsers c = some u) :
    (onDisconnect env c s).state.onlineUsers = mapDelete s.onlineUsers c := by
  simp only [onDisconnect, h]
  rw [saveAndEmit_onlineUsers]

theorem handle_registryOK (env : Env) (c : JsString) (ev : Event) (s : State)
    (hs : RegistryOK s.onlineUsers) : RegistryOK (handle env c ev s).state.onlineUsers := by
  cases ev with
  | join d =>
    simp only [handle]
    rw [onJoin_onlineUsers]
    exact registryOK_mapSet _ _ _ hs rfl
  | textMessage x =>
    simp only [handle, onTextMessage]
    cases h : mapGet s.onlineUsers c with
    | none => exact hs
    | some u =>
      simp only []
      rw [saveAndEmit_onlineUsers]
      exact hs
  | imageMessage x =>
    simp only [handle, onImageMessage]
    cases h : mapGet s.onlineUsers c with
    | none => exact hs
    | some u =>
      simp only []
      rw [saveAndEmit_onlineUsers]
      exact hs
  | typing =>
    simp only [handle, onTyping]
    cases h : mapGet s.onlineUsers c <;> exact hs
  | stopTyping =>
    simp only [handle, onStopTyping]
    cases h : mapGet s.onlineUsers c <;> exact hs
  | disconnect =>
    simp only [handle]
    cases h : mapGet s.onlineUsers c with
    | none =>
      simp only [onDisconnect, h]
      exact hs
    | some u =>
      rw [onDisconnect_onlineUsers env c s u h]
      exact registryOK_mapDelete _ _ hs

theorem reachable_registryOK (s : State) (hs : Reachable s) : RegistryOK s.onlineUsers := by
  induction hs with
  | start mf uf => exact registryOK_nil
  | step env c ev s _ ih => exact handle_registryOK env c ev s ih

theorem id_of_mapGet (s : State) (hs : Reachable s) (c : JsString) (u : User)
    (h : mapGet s.onlineUsers c = some u) : u.id = c :=
  (reachable_registryOK s hs).2 (c, u) (mem_of_mapGet _ _ _ h)

/-! ## Lemmas on snapshots -/

theorem filter_id_eq_nil (m : Registry) (c : JsString) (hids : ∀ p ∈ m, p.2.id = p.1)
    (hc : c ∉ m.map Prod.fst) :
    (mapValues m).filter (fun v => decide (v.id = c)) = [] := by
  rw [List.filter_eq_nil_iff]
  intro v hv
  simp only [mapValues, List.mem_map] at hv
  obtain ⟨p, hp, rfl⟩ := hv
  have h1 := hids p hp
  have h2 : p.1 ∈ m.map Prod.fst := List.mem_map_of_mem _ hp
  simp only [decide_eq_true_eq]
  intro h
  rw [h1] at h
  exact hc (h ▸ h2)

theorem filter_id_ne_self (m : Registry) (c : JsString) (hids : ∀ p ∈ m, p.2.id = p.1)
    (hc : c ∉ m.map Prod.fst) :
    (mapValues m).filter (fun v => decide (v.id ≠ c)) = mapValues m := by
  rw [List.filter_eq_self]
  intro v hv
  simp only [mapValues, List.mem_map] at hv
  obtain ⟨p, hp, rfl⟩ := hv
  have h1 := hids p hp
  have h2 : p.1 ∈ m.map Prod.fst := List.mem_map_of_mem _ hp
  simp only [decide_eq_true_eq]
  intro h
  rw [h1] at h
  exact hc (h ▸ h2)

theorem values_mapSet_others (m : Registry) (c : JsString) (u : User)
    (hids : ∀ p ∈ m, p.2.id = p.1) (hu : u.id = c) :
    (mapValues (mapSet m c u)).filter (fun v => decide (v.id ≠ c))
      = (mapValues m).filter (fun v => decide (v.id ≠ c)) := by
  induction m with
  | nil => simp [mapSet, mapValues, hu]
  | cons q rest ih =>
    obtain ⟨k1, v1⟩ := q
    have hv1 : v1.id = k1 := hids (k1, v1) (List.mem_cons_self _ _)
    have ih2 := ih (fun p hp => hids p (List.mem_cons_of_mem _ hp))
    by_cases hk : k1 = c
    · simp [mapSet, mapValues, hk, hu, hv1]
    · simp only [mapValues] at ih2
      simp only [mapSet, mapValues, hk, if_false, List.map_cons, List.filter_cons, ih2]

theorem values_mapSet_self (m : Registry) (c : JsString) (u : User) (hm : RegistryOK m)
    (hu : u.id = c) :
    (mapValues (mapSet m c u)).filter (fun v => decide (v.id = c)) = [u] := by
  induction m with
  | nil => simp [mapSet, mapValues, hu]
  | cons q rest ih =>
    obtain ⟨k1, v1⟩ := q
    have hv1 : v1.id = k1 := hm.2 (k1, v1) (List.mem_cons_self _ _)
    have hnd : k1 ∉ rest.map Prod.fst ∧ (rest.map Prod.fst).Nodup := by
      simpa using hm.1
    have hrest : RegistryOK rest :=
      ⟨hnd.2, fun p hp => hm.2 p (List.mem_cons_of_mem _ hp)⟩
    by_cases hk : k1 = c
    · subst hk
      have := filter_id_eq_nil rest k1 hrest.2 hnd.1
      simp only [mapValues] at this
      simp [mapSet, mapValues, hu, this]
    · have ih2 := ih hrest
      simp only [mapValues] at ih2
      simp [mapSet, mapValues, hk, hv1, ih2]

theorem values_mapDelete (m : Registry) (c : JsString) (hm : RegistryOK m) :
    mapValues (mapDelete m c) = (mapValues m).filter (fun v => decide (v.id ≠ c)) := by
  induction m with
  | nil => simp [mapDelete, mapValues]
  | cons q rest ih =>
    obtain ⟨k1, v1⟩ := q
    have hv1 : v1.id = k1 := hm.2 (k1, v1) (List.mem_cons_self _ _)
    have hnd : k1 ∉ rest.map Prod.fst ∧ (rest.map Prod.fst).Nodup := by
      simpa using hm.1
    have hrest : RegistryOK rest :=
      ⟨hnd.2, fun p hp => hm.2 p (List.mem_cons_of_mem _ hp)⟩
    by_cases hk : k1 = c
    · subst hk
      have := filter_id_ne_self rest k1 hrest.2 hnd.1
      simp only [mapValues] at this
      simp only [mapDelete, mapValues, if_true, List.map_cons, List.filter_cons, hv1, this]
      simp
    · have ih2 := ih hrest
      simp only [mapValues] at ih2
      simp [mapDelete, mapValues, hk, hv1, ih2]

/-! ## Lemmas on the shape of the handlers -/

theorem onJoin_ok (env : Env) (c : JsString) (d : UserData) (s : State)
    (hu : env.usersWrite = .ok) (hm : env.messagesWrite = .ok) :
    onJoin env c d s =
      ⟨⟨.content (lastN 500 (getMessages s.messagesFile
            ++ [systemMessage env ((mkUser env c d).username ++ utf16 " 加入了聊天室")])),
          .content (upsertUser (mkUser env c d) (getUsers s.usersFile)),
          mapSet s.onlineUsers c (mkUser env c d)⟩,
        [.saved (systemMessage env ((mkUser env c d).username ++ utf16 " 加入了聊天室")),
         .emit .all (.message (systemMessage env ((mkUser env c d).username ++ utf16 " 加入了聊天室"))),
         .emit .all (.users (mapValues (mapSet s.onlineUsers c (mkUser env c d)))),
         .emit (.only c) (.welcome (mkUser env c d)
           (mapSize (mapSet s.onlineUsers c (mkUser env c d))))],
        none⟩ := by
  simp only [onJoin, saveUser, writeFileSync, hu]
  rw [saveAndEmit_ok _ _ _ _ hm]

theorem onJoin_trace_cases (env : Env) (c : JsString) (d : UserData) (s : State) :
    (onJoin env c d s).trace = []
    ∨ (onJoin env c d s).trace =
        [.saved (systemMessage env ((mkUser env c d).username ++ utf16 " 加入了聊天室")),
         .emit .all (.message (systemMessage env ((mkUser env c d).username ++ utf16 " 加入了聊天室"))),
         .emit .all (.users (mapValues (mapSet s.onlineUsers c (mkUser env c d)))),
         .emit (.only c) (.welcome (mkUser env c d)
           (mapSize (mapSet s.onlineUsers c (mkUser env c d))))] := by
  cases hu : env.usersWrite with
  | failed l =>
    left
    simp [onJoin, saveUser, writeFileSync, hu]
  | ok =>
    cases hm : env.messagesWrite with
    | failed l =>
      left
      simp only [onJoin, saveUser, writeFileSync, hu]
      rw [saveAndEmit_failed _ _ _ _ l hm]
    | ok =>
      right
      rw [onJoin_ok env c d s hu hm]

theorem onDisconnect_trace_cases (env : Env) (c : JsString) (s : State) (u : User)
    (h : mapGet s.onlineUsers c = some u) :
    (onDisconnect env c s).trace = []
    ∨ (onDisconnect env c s).trace =
        [.saved (systemMessage env (u.username ++ utf16 " 离开了聊天室")),
         .emit .all (.message (systemMessage env (u.username ++ utf16 " 离开了聊天室"))),
         .emit .all (.users (mapValues (mapDelete s.onlineUsers c)))] := by
  cases hm : env.messagesWrite with
  | failed l =>
    left
    simp only [onDisconnect, h]
    rw [saveAndEmit_failed _ _ _ _ l hm]
  | ok =>
    right
    simp only [onDisconnect, h]
    rw [saveAndEmit_ok _ _ _ _ hm]

theorem onTextMessage_ok (env : Env) (c x : JsString) (s : State) (u : User)
    (h : mapGet s.onlineUsers c = some u) (hm : env.messagesWrite = .ok) :
    onTextMessage env c x s =
      ⟨{ s with messagesFile :=
            .content (lastN 500 (getMessages s.messagesFile ++ [userMessage env .text x u])) },
        [.saved (userMessage env .text x u), .emit .all (.message (userMessage env .text x u))],
        none⟩ := by
  simp only [onTextMessage, h]
  rw [saveAndEmit_ok _ _ _ _ hm]

/-! ## Claims on the handlers -/

/-- C3: handling any finite sequence of events from a state with an empty log, every
write succeeding, raises no error and leaves as persisted log the last 500 payloads of
the emitted `'message'` events, in emission order; in the trace every log write is
immediately followed by the `'message'` event of that same message to all sessions and
no other `'message'` event occurs, so the written and the broadcast messages are the
same list. -/
theorem C3_append_order_is_broadcast_order (steps : List Step) (s : State)
    (hlog : s.messagesFile = .content [])
    (hw : ∀ st ∈ steps, st.env.usersWrite = .ok ∧ st.env.messagesWrite = .ok) :
    (run steps s).error = none
    ∧ (run steps s).state.messagesFile
        = .content (lastN 500 (broadcastMessages (run steps s).trace))
    ∧ Paired (run steps s).trace
    ∧ savedMessages (run steps s).trace = broadcastMessages (run steps s).trace := by
  have h := run_stepOK steps s hw
  refine ⟨h.noError, ?_, h.paired, h.sameLists⟩
  have := h.log [] (by rw [hlog]; rfl)
  simpa using this

/-- Witness for C3 on a join, a text message and a disconnect of one connection. -/
theorem C3_append_order_is_broadcast_order_witness :
    sampleStart.messagesFile = .content []
    ∧ (∀ st ∈ sampleSteps, st.env.usersWrite = .ok ∧ st.env.messagesWrite = .ok)
    ∧ (run sampleSteps sampleStart).error = none
    ∧ (run sampleSteps sampleStart).state.messagesFile
        = .content (lastN 500 (broadcastMessages (run sampleSteps sampleStart).trace))
    ∧ Paired (run sampleSteps sampleStart).trace
    ∧ savedMessages (run sampleSteps sampleStart).trace
        = broadcastMessages (run sampleSteps sampleStart).trace :=
  ⟨rfl, by decide,
    C3_append_order_is_broadcast_order sampleSteps sampleStart rfl (by decide)⟩

/-- C4: on a connection with no entry in `onlineUsers`, the handlers of text-message,
image-message, typing, stop-typing and disconnect return the state unchanged (log and
registry included), emit nothing and raise no error. -/
theorem C4_unregistered_is_silent (env : Env) (c : JsString) (ev : Event) (s : State)
    (hreg : mapGet s.onlineUsers c = none) (hev : ∀ d, ev ≠ .join d) :
    handle env c ev s = ⟨s, [], none⟩ := by
  cases ev with
  | join d => exact absurd rfl (hev d)
  | textMessage x => simp [handle, onTextMessage, hreg]
  | imageMessage x => simp [handle, onImageMessage, hreg]
  | typing => simp [handle, onTyping, hreg]
  | stopTyping => simp [handle, onStopTyping, hreg]
  | disconnect => simp [handle, onDisconnect, hreg]

/-- Witness for C4: a text message on a fresh server, where nobody is registered. -/
theorem C4_unregistered_is_silent_witness :
    mapGet sampleStart.onlineUsers (utf16 "abcdef") = none
    ∧ handle sampleEnv (utf16 "abcdef") (.textMessage (utf16 "hello")) sampleStart = ⟨sampleStart, [], none⟩ :=
  ⟨rfl, C4_unregistered_is_silent sampleEnv (utf16 "abcdef") (.textMessage (utf16 "hello")) sampleStart rfl
    (by intro d; simp)⟩

/-- C5 as stated fails: it promises an appended and broadcast message for every text
submission of a registered connection, but when the write of the log throws, the handler
leaves an empty trace. -/
theorem C5_text_message_counterexample :
    ¬ ∀ (env : Env) (c x : JsString) (s : State) (u : User),
        Reachable s → mapGet s.onlineUsers c = some u →
        (handle env c (.textMessage x) s).trace
          = [.saved (userMessage env .text x u),
             .emit .all (.message (userMessage env .text x u))] := by
  intro h
  have h1 := h failingEnv (utf16 "abcdef") (utf16 "hello") sampleJoined sampleUser
    (Reachable.step _ _ _ _ (Reachable.start _ _)) (by decide)
  revert h1
  decide

/-- C5 (amended): for a connection `c` registered with participant `u`, when the write of
the log succeeds, the text-message handler writes the log with exactly one message added
(read log, new message last, `slice(-500)`), then emits that same message once as a
`'message'` event to all sessions, the sender included, and nothing else; the message has
type text, the submitted content, author id `c` and the name, avatar and color held in the
registry. After a join on `c` the registry holds the newly built participant, so a later
text message carries the new attributes; and when the writes of that join succeed, the
join and the later text message leave the stored messages as they were: the log is the
last 500 of the earlier log followed by the join notice and then the new message. -/
theorem C5_text_message (env : Env) (c x : JsString) (s : State) (u : User)
    (hs : Reachable s) (hreg : mapGet s.onlineUsers c = some u)
    (hw : env.messagesWrite = .ok) :
    handle env c (.textMessage x) s
      = ⟨{ s with messagesFile :=
            .content (lastN 500 (getMessages s.messagesFile ++ [userMessage env .text x u])) },
          [.saved (userMessage env .text x u),
           .emit .all (.message (userMessage env .text x u))],
          none⟩
    ∧ receives .all c = true
    ∧ (userMessage env .text x u).type = .text
    ∧ (userMessage env .text x u).content = x
    ∧ (userMessage env .text x u).userId = some c
    ∧ (userMessage env .text x u).username = some u.username
    ∧ (userMessage env .text x u).avatar = some u.avatar
    ∧ (userMessage env .text x u).color = some u.color
    ∧ (∀ (envJ : Env) (d : UserData) (y : JsString),
        broadcastMessages
          (handle env c (.textMessage y) (handle envJ c (.join d) s).state).trace
        = [userMessage env .text y (mkUser envJ c d)])
    ∧ ∀ (envJ : Env) (d : UserData) (y : JsString),
        envJ.usersWrite = .ok → envJ.messagesWrite = .ok →
        (handle envJ c (.join d) s).state.messagesFile
          = .content (lastN 500 (getMessages s.messagesFile
              ++ [systemMessage envJ ((mkUser envJ c d).username ++ utf16 " 加入了聊天室")]))
        ∧ (handle env c (.textMessage y) (handle envJ c (.join d) s).state).state.messagesFile
          = .content (lastN 500 (getMessages s.messagesFile
              ++ [systemMessage envJ ((mkUser envJ c d).username ++ utf16 " 加入了聊天室"),
                  userMessage env .text y (mkUser envJ c d)])) := by
  have hj : ∀ (envJ : Env) (d : UserData),
      mapGet (onJoin envJ c d s).state.onlineUsers c = some (mkUser envJ c d) := by
    intro envJ d
    rw [onJoin_onlineUsers, mapGet_mapSet_self]
  refine ⟨onTextMessage_ok env c x s u hreg hw, rfl, rfl, rfl, ?_, rfl, rfl, rfl, ?_, ?_⟩
  · show some u.id = some c
    rw [id_of_mapGet s hs c u hreg]
  · intro envJ d y
    simp only [handle]
    rw [onTextMessage_ok env c y _ _ (hj envJ d) hw]
    simp [broadcastMessages]
  · intro envJ d y hju hjm
    simp only [handle]
    have hlog : (onJoin envJ c d s).state.messagesFile
        = .content (lastN 500 (getMessages s.messagesFile
            ++ [systemMessage envJ ((mkUser envJ c d).username ++ utf16 " 加入了聊天室")])) := by
      rw [onJoin_ok envJ c d s hju hjm]
    refine ⟨hlog, ?_⟩
    rw [onTextMessage_ok env c y _ _ (hj envJ d) hw]
    show FileContent.content _ = _
    rw [hlog]
    simp only [getMessages]
    rw [lastN_snoc_lastN 500 500 _ _ (by omega), List.append_assoc]
    rfl

/-- Witness for C5: Ann, registered on connection `abcdef`, says hello. -/
theorem C5_text_message_witness :
    mapGet sampleJoined.onlineUsers (utf16 "abcdef") = some sampleUser
    ∧ sampleEnv.messagesWrite = .ok
    ∧ (handle sampleEnv (utf16 "abcdef") (.textMessage (utf16 "hello")) sampleJoined).trace
        = [.saved (userMessage sampleEnv .text (utf16 "hello") sampleUser),
           .emit .all (.message (userMessage sampleEnv .text (utf16 "hello") sampleUser))] :=
  ⟨by decide, rfl,
    congrArg Outcome.trace
      (C5_text_message sampleEnv (utf16 "abcdef") (utf16 "hello") sampleJoined sampleUser
        (Reachable.step _ _ _ _ (Reachable.start _ _)) (by decide) rfl).1⟩

/-- C6: in a reachable state, every `'users'` snapshot emitted by the join handler for
`c` contains exactly one participant with id `c`, namely the one just registered, and its
other entries are those of the registry before the event, unchanged and in order; the
snapshot is emitted whenever both writes succeed. Every `'users'` snapshot emitted by the
disconnect handler for a registered `c` has no participant with id `c` and is otherwise
the registry before the event; it is emitted whenever the log write succeeds. -/
theorem C6_presence_snapshots (s : State) (hs : Reachable s) (env : Env) (c : JsString) :
    (∀ (d : UserData) (t : Target) (snap : List User),
        Effect.emit t (.users snap) ∈ (handle env c (.join d) s).trace →
        mkUser env c d ∈ snap
        ∧ (mkUser env c d).id = c
        ∧ mapGet (handle env c (.join d) s).state.onlineUsers c = some (mkUser env c d)
        ∧ snap.filter (fun v => decide (v.id = c)) = [mkUser env c d]
        ∧ snap.filter (fun v => decide (v.id ≠ c))
            = (mapValues s.onlineUsers).filter (fun v => decide (v.id ≠ c)))
    ∧ (∀ d : UserData, env.usersWrite = .ok → env.messagesWrite = .ok →
        Effect.emit .all (.users (mapValues (mapSet s.onlineUsers c (mkUser env c d))))
          ∈ (handle env c (.join d) s).trace)
    ∧ (∀ u : User, mapGet s.onlineUsers c = some u →
        ∀ (t : Target) (snap : List User),
          Effect.emit t (.users snap) ∈ (handle env c .disconnect s).trace →
          (∀ v ∈ snap, v.id ≠ c)
          ∧ snap = (mapValues s.onlineUsers).filter (fun v => decide (v.id ≠ c)))
    ∧ (∀ u : User, mapGet s.onlineUsers c = some u → env.messagesWrite = .ok →
        Effect.emit .all (.users (mapValues (mapDelete s.onlineUsers c)))
          ∈ (handle env c .disconnect s).trace) := by
  have hok := reachable_registryOK s hs
  refine ⟨?_, ?_, ?_, ?_⟩
  · intro d t snap hmem
    have hsnap : snap = mapValues (mapSet s.onlineUsers c (mkUser env c d)) := by
      simp only [handle] at hmem
      rcases onJoin_trace_cases env c d s with h | h
      · rw [h] at hmem
        simp at hmem
      · rw [h] at hmem
        simp at hmem
        exact hmem.2
    have hself := values_mapSet_self s.onlineUsers c (mkUser env c d) hok rfl
    refine ⟨?_, rfl, ?_, ?_, ?_⟩
    · have : mkUser env c d ∈ [mkUser env c d] := List.mem_singleton_self _
      rw [← hself, ← hsnap] at this
      exact List.mem_of_mem_filter this
    · simp only [handle]
      rw [onJoin_onlineUsers, mapGet_mapSet_self]
    · rw [hsnap]
      exact hself
    · rw [hsnap]
      exact values_mapSet_others s.onlineUsers c (mkUser env c d) hok.2 rfl
  · intro d hu hm
    simp only [handle]
    rw [onJoin_ok env c d s hu hm]
    simp
  · intro u hreg t snap hmem
    have hsnap : snap = mapValues (mapDelete s.onlineUsers c) := by
      simp only [handle] at hmem
      rcases onDisconnect_trace_cases env c s u hreg with h | h
      · rw [h] at hmem
        simp at hmem
      · rw [h] at hmem
        simp at hmem
        exact hmem.2
    have hval := values_mapDelete s.onlineUsers c hok
    refine ⟨?_, ?_⟩
    · intro v hv
      rw [hsnap, hval] at hv
      simpa using (List.mem_filter.mp hv).2
    · rw [hsnap]
      exact hval
  · intro u hreg hm
    simp only [handle, onDisconnect, hreg]
    rw [saveAndEmit_ok _ _ _ _ hm]
    simp

/-- Witness for C6: the snapshot of a first join holds the joining participant. -/
theorem C6_presence_snapshots_witness :
    Effect.emit .all
        (.users (mapValues (mapSet sampleStart.onlineUsers (utf16 "abcdef")
          (mkUser sampleEnv (utf16 "abcdef") ⟨some (utf16 "Ann"), some (utf16 "🦊"), some (utf16 "#FF6B6B")⟩))))
      ∈ (handle sampleEnv (utf16 "abcdef") (.join ⟨some (utf16 "Ann"), some (utf16 "🦊"), some (utf16 "#FF6B6B")⟩)
          sampleStart).trace :=
  (C6_presence_snapshots sampleStart (Reachable.start _ _) sampleEnv (utf16 "abcdef")).2.1
    ⟨some (utf16 "Ann"), some (utf16 "🦊"), some (utf16 "#FF6B6B")⟩ rfl rfl

/-- C7: for a connection `c` registered with participant `u`, the typing handler emits
exactly one event, `'user-typing'` with payload username `u.username`, through
`socket.broadcast`, which reaches every session other than `c` and not `c`; stop-typing
does the same with `'user-stop-typing'`. Both leave the whole state (message log and
registry included) unchanged and raise no error. -/
theorem C7_typing_relay (env : Env) (c : JsString) (s : State) (u : User)
    (hreg : mapGet s.onlineUsers c = some u) :
    handle env c .typing s
      = ⟨s, [.emit (.allExcept c) (.userTyping u.username)], none⟩
    ∧ handle env c .stopTyping s
      = ⟨s, [.emit (.allExcept c) (.userStopTyping u.username)], none⟩
    ∧ receives (.allExcept c) c = false
    ∧ ∀ b : JsString, b ≠ c → receives (.allExcept c) b = true := by
  refine ⟨?_, ?_, ?_, ?_⟩
  · simp [handle, onTyping, hreg]
  · simp [handle, onStopTyping, hreg]
  · simp [receives]
  · intro b hb
    simp [receives, hb]

/-- Witness for C7: Ann types on connection `abcdef`. -/
theorem C7_typing_relay_witness :
    mapGet sampleJoined.onlineUsers (utf16 "abcdef") = some sampleUser
    ∧ handle sampleEnv (utf16 "abcdef") .typing sampleJoined
      = ⟨sampleJoined, [.emit (.allExcept (utf16 "abcdef")) (.userTyping (utf16 "Ann"))], none⟩ :=
  ⟨by decide, (C7_typing_relay sampleEnv (utf16 "abcdef") sampleJoined sampleUser (by decide)).1⟩

/-- C8 as stated fails twice. The fallback name is not `User` followed by the id
slice: on connection `abcdef` it is `用户abcd`. And the join notice is not appended and
emitted on every join with an empty name: when the write of the log throws, nothing is
emitted. -/
theorem C8_fallback_name_counterexample :
    (¬ ∀ (env : Env) (c : JsString) (d : UserData) (s : State),
        (d.username = none ∨ d.username = some []) →
        ∃ u, mapGet (handle env c (.join d) s).state.onlineUsers c = some u
          ∧ u.username = (utf16 "User") ++ strSlice c 0 4)
    ∧ (¬ ∀ (env : Env) (c : JsString) (d : UserData) (s : State),
        (d.username = none ∨ d.username = some []) →
        ∃ m, Effect.emit .all (.message m) ∈ (handle env c (.join d) s).trace) := by
  constructor
  · intro h
    obtain ⟨u, h1, h2⟩ := h sampleEnv (utf16 "abcdef") ⟨some [], none, none⟩ sampleStart (Or.inr rfl)
    have e : mapGet (handle sampleEnv (utf16 "abcdef") (.join ⟨some [], none, none⟩)
        sampleStart).state.onlineUsers (utf16 "abcdef")
        = some (mkUser sampleEnv (utf16 "abcdef") ⟨some [], none, none⟩) := by decide
    rw [e] at h1
    injection h1 with h1
    subst h1
    revert h2
    decide
  · intro h
    obtain ⟨m, hm⟩ := h failingEnv (utf16 "abcdef") ⟨some [], none, none⟩ sampleStart (Or.inr rfl)
    have e : (handle failingEnv (utf16 "abcdef") (.join ⟨some [], none, none⟩) sampleStart).trace
        = [] := by decide
    rw [e] at hm
    simp at hm

/-- C8 (amended): a join with a missing or empty display name on connection `c` registers
the participant under the name `用户` followed by `c.slice(0, 4)` (the first 4 characters
of `c` as JavaScript counts them, or all of `c` when shorter), an expression of `c` alone.
When both file writes succeed, the system message with content that name followed by
` 加入了聊天室`, with no author id, is written to the log and emitted as a `'message'` event
to all sessions, ahead of the other emits. A join with a non-empty display name registers
the participant under that name unchanged, and the notice carries it. -/
theorem C8_fallback_name (env : Env) (c : JsString) (s : State) :
    (∀ d : UserData, (d.username = none ∨ d.username = some []) →
      mapGet (handle env c (.join d) s).state.onlineUsers c = some (mkUser env c d)
      ∧ (mkUser env c d).username = utf16 "用户" ++ strSlice c 0 4
      ∧ (env.usersWrite = .ok → env.messagesWrite = .ok →
          (handle env c (.join d) s).trace.take 2
            = [.saved (systemMessage env (utf16 "用户" ++ strSlice c 0 4 ++ utf16 " 加入了聊天室")),
               .emit .all (.message
                 (systemMessage env (utf16 "用户" ++ strSlice c 0 4 ++ utf16 " 加入了聊天室")))]
          ∧ (handle env c (.join d) s).state.messagesFile
            = .content (lastN 500 (getMessages s.messagesFile
                ++ [systemMessage env (utf16 "用户" ++ strSlice c 0 4 ++ utf16 " 加入了聊天室")]))
          ∧ (handle env c (.join d) s).error = none))
    ∧ strSlice c 0 4 = c.take 4
    ∧ (c.length ≤ 4 → strSlice c 0 4 = c)
    ∧ (∀ content : JsString, (systemMessage env content).userId = none
        ∧ (systemMessage env content).type = .system)
    ∧ (∀ (d : UserData) (n : JsString), d.username = some n → n ≠ [] →
      mapGet (handle env c (.join d) s).state.onlineUsers c = some (mkUser env c d)
      ∧ (mkUser env c d).username = n
      ∧ (env.usersWrite = .ok → env.messagesWrite = .ok →
          (handle env c (.join d) s).trace.take 2
            = [.saved (systemMessage env (n ++ utf16 " 加入了聊天室")),
               .emit .all (.message (systemMessage env (n ++ utf16 " 加入了聊天室")))])) := by
  have hreg : ∀ d : UserData,
      mapGet (handle env c (.join d) s).state.onlineUsers c = some (mkUser env c d) := by
    intro d
    simp only [handle]
    rw [onJoin_onlineUsers, mapGet_mapSet_self]
  refine ⟨?_, ?_, ?_, fun _ => ⟨rfl, rfl⟩, ?_⟩
  · intro d hd
    have hname : (mkUser env c d).username = utf16 "用户" ++ strSlice c 0 4 := by
      rcases hd with h | h <;> simp [mkUser, orElse, h]
    refine ⟨hreg d, hname, ?_⟩
    intro hu hm
    simp only [handle]
    rw [onJoin_ok env c d s hu hm, hname]
    simp
  · simp [strSlice]
  · intro hlen
    simp [strSlice, List.take_of_length_le hlen]
  · intro d n hd hn
    have hname : (mkUser env c d).username = n := by
      simp [mkUser, orElse, hd, hn]
    refine ⟨hreg d, hname, ?_⟩
    intro hu hm
    simp only [handle]
    rw [onJoin_ok env c d s hu hm, hname]
    simp

/-- Witness for C8: an empty display name on connection `abcdef`. -/
theorem C8_fallback_name_witness :
    ((⟨some [], none, none⟩ : UserData).username = none
      ∨ (⟨some [], none, none⟩ : UserData).username = some [])
    ∧ (mkUser sampleEnv (utf16 "abcdef") ⟨some [], none, none⟩).username = utf16 "用户abcd" :=
  ⟨Or.inr rfl,
    (((C8_fallback_name sampleEnv (utf16 "abcdef") sampleStart).1
      ⟨some [], none, none⟩ (Or.inr rfl)).2.1).trans (by decide)⟩

/-- C9: in every reachable state the registry has pairwise distinct connection ids as
keys (at most one participant per connection) and every participant is stored under its
own id. A join from a connection that is already registered puts the new participant in
its entry, leaves every other entry as it was and the number of entries unchanged; every
`'welcome'` count and every `'users'` snapshot length emitted by that join equals the
count before it, and both are emitted when the two file writes succeed. -/
theorem C9_registry_one_per_connection (s : State) (hs : Reachable s) :
    (s.onlineUsers.map Prod.fst).Nodup
    ∧ (∀ (k : JsString) (u : User), (k, u) ∈ s.onlineUsers → u.id = k)
    ∧ ∀ (env : Env) (c : JsString) (d : UserData) (u0 : User),
        mapGet s.onlineUsers c = some u0 →
        mapGet (handle env c (.join d) s).state.onlineUsers c = some (mkUser env c d)
        ∧ (∀ k : JsString, k ≠ c →
            mapGet (handle env c (.join d) s).state.onlineUsers k = mapGet s.onlineUsers k)
        ∧ mapSize (handle env c (.join d) s).state.onlineUsers = mapSize s.onlineUsers
        ∧ (∀ (t : Target) (usr : User) (n : Nat),
            Effect.emit t (.welcome usr n) ∈ (handle env c (.join d) s).trace →
            n = mapSize s.onlineUsers)
        ∧ (∀ (t : Target) (snap : List User),
            Effect.emit t (.users snap) ∈ (handle env c (.join d) s).trace →
            snap.length = mapSize s.onlineUsers)
        ∧ (env.usersWrite = .ok → env.messagesWrite = .ok →
            Effect.emit (.only c) (.welcome (mkUser env c d) (mapSize s.onlineUsers))
              ∈ (handle env c (.join d) s).trace
            ∧ ∃ snap, Effect.emit .all (.users snap) ∈ (handle env c (.join d) s).trace) := by
  have hok := reachable_registryOK s hs
  refine ⟨hok.1, fun k u hmem => hok.2 (k, u) hmem, ?_⟩
  intro env c d u0 hreg
  have hsize := mapSize_mapSet_of_mem s.onlineUsers c u0 (mkUser env c d) hreg
  have hreg2 : (handle env c (.join d) s).state.onlineUsers
      = mapSet s.onlineUsers c (mkUser env c d) := by
    simp only [handle]
    rw [onJoin_onlineUsers]
  refine ⟨?_, ?_, ?_, ?_, ?_, ?_⟩
  · rw [hreg2, mapGet_mapSet_self]
  · intro k hk
    rw [hreg2, mapGet_mapSet_other _ _ _ _ hk]
  · rw [hreg2, hsize]
  · intro t usr n hmem
    simp only [handle] at hmem
    rcases onJoin_trace_cases env c d s with h | h
    · rw [h] at hmem
      simp at hmem
    · rw [h] at hmem
      simp at hmem
      rw [← hsize]
      exact hmem.2.2
  · intro t snap hmem
    simp only [handle] at hmem
    rcases onJoin_trace_cases env c d s with h | h
    · rw [h] at hmem
      simp at hmem
    · rw [h] at hmem
      simp at hmem
      rw [hmem.2, ← hsize]
      simp [mapValues, mapSize]
  · intro hu hm
    simp only [handle]
    rw [onJoin_ok env c d s hu hm, hsize]
    simp

/-- Witness for C9: the state after Ann joined on a fresh server. -/
theorem C9_registry_one_per_connection_witness :
    (sampleJoined.onlineUsers.map Prod.fst).Nodup
    ∧ mapSize (handle sampleEnv (utf16 "abcdef") (.join ⟨some (utf16 "Bea"), none, none⟩)
        sampleJoined).state.onlineUsers = mapSize sampleJoined.onlineUsers :=
  ⟨(C9_registry_one_per_connection sampleJoined
      (Reachable.step _ _ _ _ (Reachable.start _ _))).1,
   ((C9_registry_one_per_connection sampleJoined
      (Reachable.step _ _ _ _ (Reachable.start _ _))).2.2
      sampleEnv (utf16 "abcdef") ⟨some (utf16 "Bea"), none, none⟩ sampleUser (by decide)).2.2.1⟩

/-- C10: when the write of the log fails, `saveMessage` ends with the write error, and
so does the text-message or image-message handler of a registered connection: its error
is that error, its trace is empty (no `'message'` event to any session) and the registry
is as before. -/
theorem C10_write_failure_propagates (env : Env) (c x : JsString) (s : State) (u : User)
    (left : FileContent Message) (hreg : mapGet s.onlineUsers c = some u)
    (hw : env.messagesWrite = .failed left) :
    (∀ (m : Message) (file : FileContent Message),
        (saveMessage env.messagesWrite m file).2 = some .writeFailed)
    ∧ (handle env c (.textMessage x) s).error = some .writeFailed
    ∧ (handle env c (.textMessage x) s).trace = []
    ∧ (handle env c (.textMessage x) s).state.onlineUsers = s.onlineUsers
    ∧ (handle env c (.imageMessage x) s).error = some .writeFailed
    ∧ (handle env c (.imageMessage x) s).trace = []
    ∧ (handle env c (.imageMessage x) s).state.onlineUsers = s.onlineUsers := by
  have ht : handle env c (.textMessage x) s
      = ⟨{ s with messagesFile := left }, [], some .writeFailed⟩ := by
    simp only [handle, onTextMessage, hreg]
    rw [saveAndEmit_failed _ _ _ _ left hw]
  have hi : handle env c (.imageMessage x) s
      = ⟨{ s with messagesFile := left }, [], some .writeFailed⟩ := by
    simp only [handle, onImageMessage, hreg]
    rw [saveAndEmit_failed _ _ _ _ left hw]
  refine ⟨?_, ?_, ?_, ?_, ?_, ?_, ?_⟩
  · intro m file
    rw [hw, saveMessage_failed]
  all_goals first | rw [ht] | rw [hi]

/-- Witness for C10: Ann says hello while the log cannot be written. -/
theorem C10_write_failure_propagates_witness :
    mapGet sampleJoined.onlineUsers (utf16 "abcdef") = some sampleUser
    ∧ failingEnv.messagesWrite = .failed (.content [])
    ∧ (handle failingEnv (utf16 "abcdef") (.textMessage (utf16 "hello")) sampleJoined).error
        = some .writeFailed :=
  ⟨by decide, rfl,
    (C10_write_failure_propagates failingEnv (utf16 "abcdef") (utf16 "hello") sampleJoined sampleUser
      (.content []) (by decide) rfl).2.1⟩

/-- C11 as stated fails: on a log that cannot be read, `saveMessage` does not always
succeed. When the write throws as well (a file that can be neither read nor written),
it ends with the write error and the log does not hold the message. -/
theorem C11_unreadable_log_reset_counterexample :
    ¬ ∀ (w : WriteResult Message) (m : Message),
        saveMessage w m .unreadable = (.content [m], none) := by
  intro h
  have h1 := h (.failed .unreadable) (systemMessage failingEnv (utf16 "x"))
  revert h1
  decide

/-- C11 (amended): on a log that cannot be read or parsed, `getMessages` returns the empty
sequence without failing; `saveMessage(m)` on such a log, when its write succeeds, returns
without error and leaves a log holding exactly the one message `m`, so nothing stored
before survives although the count (1) is below the cap of 500. In particular, messages
stored before a failed write that left the log unreadable are all gone after the next
successful append. -/
theorem C11_unreadable_log_reset (m : Message) :
    getMessages .unreadable = []
    ∧ saveMessage .ok m .unreadable = (.content [m], none)
    ∧ (∀ x ∈ getMessages (saveMessage .ok m .unreadable).1, x = m)
    ∧ (getMessages (saveMessage .ok m .unreadable).1).length = 1
    ∧ (getMessages (saveMessage .ok m .unreadable).1).length ≤ 500
    ∧ ∀ (old : List Message) (m1 : Message),
        saveMessage .ok m (saveMessage (.failed .unreadable) m1 (.content old)).1
          = (.content [m], none) := by
  have h : saveMessage .ok m .unreadable = (.content [m], none) := by
    rw [saveMessage_ok]
    simp [getMessages, lastN]
  refine ⟨rfl, h, ?_, ?_, ?_, ?_⟩
  · intro x hx
    rw [h] at hx
    simpa [getMessages] using hx
  · rw [h]
    simp [getMessages]
  · rw [h]
    simp [getMessages]
  · intro old m1
    rw [saveMessage_failed]
    exact h

end Chatroom
